import Mathlib

/-!  Shallow embedding of the VCB--S-chat TTS servers (`mms_server.py` and
`piper_server.py`): the static language tables, the `/tts-stream` synthesis
dispatcher with its native-model / cloud-API / silence fallback chain, the
silent-WAV generator, the AfroLID language-identification flow, the lazy
classifier loader, and the Piper placeholder handler.  External collaborators
(the MMS neural model, the gTTS cloud API, the AfroLID classifier pipeline and
the random greeting choice) are opaque in the source, so they are modelled as
oracles carried in environment records; everything the repository itself
computes is translated directly from the Python source. -/

namespace Mms

/-- Little-endian 16-bit encoding of a sample value, as the `wave` module
writes it. -/
def le16 (n : Nat) : List Nat := [n % 256, n / 256 % 256]

/-- Little-endian 32-bit encoding, as the `wave` module writes it. -/
def le32 (n : Nat) : List Nat :=
  [n % 256, n / 256 % 256, n / 65536 % 256, n / 16777216 % 256]

/-- Byte values of an ASCII tag such as "RIFF". -/
def asciiBytes (s : String) : List Nat := s.toList.map Char.toNat

/-- Python's `str.strip()`: drop whitespace from both ends (character-list
form of `String.trim`, kept executable down to the kernel). -/
def strStrip (s : String) : String :=
  ⟨((s.data.dropWhile Char.isWhitespace).reverse.dropWhile Char.isWhitespace).reverse⟩

/-- Python's `str.lower()` on the ASCII labels involved (character-list form
of `String.toLower`). -/
def strLower (s : String) : String := ⟨s.data.map Char.toLower⟩

/-- The 44-byte RIFF/WAVE PCM header the Python `wave` module emits for the
parameters set in `generate_silent_audio` (`setnchannels`, `setsampwidth`,
`setframerate`, followed by `writeframes` of `nframes` frames). -/
def wavHeader (nchannels sampwidth framerate nframes : Nat) : List Nat :=
  let dataSize := nframes * nchannels * sampwidth
  asciiBytes "RIFF" ++ le32 (36 + dataSize) ++
  asciiBytes "WAVE" ++ asciiBytes "fmt " ++ le32 16 ++
  le16 1 ++ le16 nchannels ++ le32 framerate ++
  le32 (framerate * nchannels * sampwidth) ++
  le16 (nchannels * sampwidth) ++ le16 (8 * sampwidth) ++
  asciiBytes "data" ++ le32 dataSize

/-- `generate_silent_audio` from `mms_server.py`: one second of silence as
16-bit mono PCM WAV at 16 kHz.  `b'\x00\x00' * num_samples` is the join of
`num_samples` copies of the two-byte frame `[0, 0]`. -/
def generate_silent_audio : List Nat :=
  let sample_rate := 16000
  let duration := 1
  let num_samples := sample_rate * duration
  wavHeader 1 2 sample_rate num_samples ++
    (List.replicate num_samples ([0, 0] : List Nat)).flatten

/-- `SA_LANGUAGE_CODES` from `mms_server.py`. -/
def SA_LANGUAGE_CODES : List (String × String) :=
  [("en", "eng"), ("af", "afr"), ("zu", "zul"), ("xh", "xho"),
   ("nso", "nso"), ("tn", "tsn"), ("st", "sot"), ("ts", "tso"),
   ("ss", "ssw"), ("ve", "ven"), ("nr", "nbl")]

/-- `GTTS_SUPPORTED` from `mms_server.py`. -/
def GTTS_SUPPORTED : List String := ["en", "af"]

/-- One entry of `SA_LANGUAGE_METADATA`: display name, greeting phrases and
AfroLID label aliases (the spec's LanguageProfile). -/
structure LanguageProfile where
  name : String
  greetings : List String
  afrolid_labels : List String
deriving DecidableEq

/-- The English profile, also the default used by `_get_language_metadata`. -/
def enProfile : LanguageProfile :=
  ⟨"English", ["Hello!", "Good day!", "Howzit!"], ["eng"]⟩

/-- `SA_LANGUAGE_METADATA` from `mms_server.py`. -/
def SA_LANGUAGE_METADATA : List (String × LanguageProfile) :=
  [("en", enProfile),
   ("af", ⟨"Afrikaans", ["Hallo!", "Goeie dag!", "Howzit!"], ["afr"]⟩),
   ("zu", ⟨"Zulu", ["Sawubona!", "Sanibonani!", "Yebo!"], ["zul"]⟩),
   ("xh", ⟨"Xhosa", ["Molo!", "Molweni!", "Ewe!"], ["xho"]⟩),
   ("nso", ⟨"Sepedi", ["Dumela!", "Thobela!", "Ee!"], ["nso"]⟩),
   ("tn", ⟨"Setswana", ["Dumela!", "Dumelang!", "Ee rra!"], ["tsn"]⟩),
   ("st", ⟨"Sesotho", ["Dumela!", "Dumelang!", "Kea leboha!"], ["sot"]⟩),
   ("ts", ⟨"Xitsonga", ["Avuxeni!", "Xewani!", "Ina!"], ["tso"]⟩),
   ("ss", ⟨"siSwati", ["Sawubona!", "Sanibonani!", "Yebo make!"], ["ssw"]⟩),
   ("ve", ⟨"Tshivenda", ["Ndaa!", "Matsheloni!", "Vho-vho!"], ["ven"]⟩),
   ("nr", ⟨"isiNdebele", ["Lotjhani!", "Salibonani!", "Yebo baba!"], ["nbl"]⟩)]

/-- `AFROLID_LABEL_TO_CODE`, built from the metadata table exactly as the
module-level loop in `mms_server.py` builds it (each lowercased alias label
maps back to its language code). -/
def AFROLID_LABEL_TO_CODE : List (String × String) :=
  SA_LANGUAGE_METADATA.foldl
    (fun acc kv => acc ++ kv.2.afrolid_labels.map (fun label => (strLower label, kv.1)))
    []

/-- Default of the `AFROLID_MODEL_ID` environment variable. -/
def AFROLID_MODEL_ID : String := "UBC-NLP/afrolid_1.5"

/-- Response of the `/tts-stream` handler: either a JSON error (`jsonify`
with an HTTP status) or a binary audio body with a MIME type. -/
inductive TTSResponse where
  | json (status : Nat) (error : String)
  | audio (body : List Nat) (mime : String)
deriving DecidableEq

/-- Oracle environment for the synthesis dispatcher: whether the MMS import
succeeded (`MMS_AVAILABLE`), and the outcomes of `generate_tts_mms` and
`generate_tts_gtts` (both return `None` on any caught failure, modelled as
`none`). -/
structure TTSEnv where
  mmsAvailable : Bool
  mmsResult : String → String → Option (List Nat)
  gttsResult : String → String → Option (List Nat)

/-- The `/tts-stream` handler `text_to_speech_stream` of `mms_server.py`:
empty text is rejected with HTTP 400; otherwise stage 1 tries MMS (when
available and the code is not gTTS-only), stage 2 tries gTTS for codes in
`GTTS_SUPPORTED`, stage 3 falls back to one second of silence. -/
def text_to_speech_stream (env : TTSEnv) (text lang_code : String) : TTSResponse :=
  if text = "" then .json 400 "Text is required"
  else
    let mms_lang := (SA_LANGUAGE_CODES.lookup lang_code).getD "eng"
    let mmsAttempt : Option (List Nat) :=
      if env.mmsAvailable && !(GTTS_SUPPORTED.contains lang_code) then
        env.mmsResult text mms_lang
      else none
    match mmsAttempt with
    | some audio_data => .audio audio_data "audio/wav"
    | none =>
      let gttsAttempt : Option (List Nat) :=
        if GTTS_SUPPORTED.contains lang_code then
          env.gttsResult text (if lang_code = "en" then "en" else "af")
        else none
      match gttsAttempt with
      | some audio_data => .audio audio_data "audio/mpeg"
      | none => .audio generate_silent_audio "audio/wav"

/-- Python's `round(x, 2)` on an exact rational: round half to even at the
second decimal (scores are modelled as exact rationals instead of IEEE
floats; the operations the identifier performs on them — scaling, clamping,
comparison, rounding — are the same). -/
def roundHalfEven (q : ℚ) : ℤ :=
  let f := ⌊q⌋
  let frac := q - f
  if frac < 1 / 2 then f
  else if 1 / 2 < frac then f + 1
  else if f % 2 = 0 then f else f + 1

/-- `round(q, 2)` at two decimal places. -/
def round2 (q : ℚ) : ℚ := (roundHalfEven (q * 100) : ℚ) / 100

/-- One raw classifier prediction, already reduced to the two keys the loop
reads: `item.get('label', '')` and `item.get('score', 0.0)`. -/
structure Prediction where
  label : String
  score : ℚ
deriving DecidableEq

/-- One entry of the `candidates` list built by `detect_language_afrolid`:
the `code` and `language` keys are present only when the label mapped. -/
structure Candidate where
  label : String
  score : ℚ
  code : Option String
  language : Option String
deriving DecidableEq

/-- The shapes `predictions_raw` can take before normalization: a list of
lists of dicts, a flat list of dicts, or a single dict. -/
inductive PredictionsRaw where
  | listOfLists (lists : List (List Prediction))
  | listOfDicts (preds : List Prediction)
  | singleDict (pred : Prediction)
deriving DecidableEq

/-- Python truthiness test `not predictions_raw` (a dict item is nonempty,
hence truthy). -/
def PredictionsRaw.isFalsy : PredictionsRaw → Bool
  | .listOfLists l => l.isEmpty
  | .listOfDicts l => l.isEmpty
  | .singleDict _ => false

/-- The normalization block of `detect_language_afrolid`: a nested list
yields its first element, a flat list is kept, anything else is wrapped. -/
def PredictionsRaw.normalize : PredictionsRaw → List Prediction
  | .listOfLists (first :: _) => first
  | .listOfLists [] => []
  | .listOfDicts l => l
  | .singleDict p => [p]

/-- Outcome of calling the classifier pipeline on the cleaned text. -/
inductive PipelineCall where
  | raises
  | returns (raw : PredictionsRaw)
deriving DecidableEq

/-- Oracle environment for one `detect_language_afrolid` call:
`transformersAvailable` is `TRANSFORMERS_PIPELINE_AVAILABLE`, `loadSucceeds`
says whether `_load_afrolid_pipeline` ends with a non-`None` pipeline (a
cached or fresh successful load), `call` is the classifier outcome, and
`pick` drives `random.choice`. -/
structure DetectEnv where
  transformersAvailable : Bool
  loadSucceeds : Bool
  call : PipelineCall
  pick : Nat

/-- `_load_afrolid_pipeline` returns a pipeline exactly when the
transformers dependency is present and the (cached or fresh) load
succeeded. -/
def DetectEnv.pipelineAvailable (env : DetectEnv) : Bool :=
  env.transformersAvailable && env.loadSucceeds

/-- The detection payload dict: the `reason` key is present only on the
fallback path. -/
structure DetectionResult where
  language : String
  code : String
  confidence : ℚ
  greeting : String
  source : String
  model : Option String
  reason : Option String
  candidates : List Candidate
deriving DecidableEq

/-- `_get_language_metadata`: table lookup with the English profile as
default. -/
def get_language_metadata (code : String) : LanguageProfile :=
  (SA_LANGUAGE_METADATA.lookup code).getD enProfile

/-- `_get_language_name` (the metadata `name` is a string by construction,
so the `isinstance` guard of the source is statically discharged). -/
def get_language_name (code : String) : String :=
  (get_language_metadata code).name

/-- `_get_greetings`: the profile's greeting list when nonempty, else the
single default greeting. -/
def get_greetings (code : String) : List String :=
  let greetings := (get_language_metadata code).greetings
  if greetings.isEmpty then ["Hello!"] else greetings

/-- `random.choice` driven by the oracle die roll `pick`; on the nonempty
lists it is applied to, this is exactly element `pick % length`. -/
def random_choice (l : List String) (pick : Nat) : String :=
  l.getD (pick % l.length) "Hello!"

/-- `_fallback_detection` from `mms_server.py`. -/
def fallback_detection (env : DetectEnv) (reason : String)
    (candidates : List Candidate) : DetectionResult :=
  { language := get_language_name "en"
  , code := "en"
  , confidence := 55
  , greeting := random_choice (get_greetings "en") env.pick
  , source := "fallback"
  , model := if env.transformersAvailable then some AFROLID_MODEL_ID else none
  , reason := some reason
  , candidates := candidates }

/-- `score_percent` of one prediction: the score scaled to percent and
clamped into [0, 100]. -/
def pct (item : Prediction) : ℚ := max (min (item.score * 100) 100) 0

/-- `AFROLID_LABEL_TO_CODE.get(label_value)` for one prediction's lowercased
label. -/
def mapOf (item : Prediction) : Option String :=
  AFROLID_LABEL_TO_CODE.lookup (strLower item.label)

/-- The `candidate_payload` dict built for one prediction. -/
def toCandidate (item : Prediction) : Candidate :=
  { label := strLower item.label
  , score := round2 (pct item)
  , code := mapOf item
  , language := (mapOf item).map get_language_name }

/-- The loop state of `detect_language_afrolid`: the growing candidate list
and the running best mapped code and confidence. -/
structure LoopState where
  candidates : List Candidate
  best_code : Option String
  best_confidence : ℚ
deriving DecidableEq

/-- One iteration of the prediction loop in `detect_language_afrolid`. -/
def processPrediction (s : LoopState) (item : Prediction) : LoopState :=
  match mapOf item with
  | some c =>
    if pct item > s.best_confidence then
      ⟨s.candidates ++ [toCandidate item], some c, pct item⟩
    else
      ⟨s.candidates ++ [toCandidate item], s.best_code, s.best_confidence⟩
  | none => ⟨s.candidates ++ [toCandidate item], s.best_code, s.best_confidence⟩

/-- The best-code/best-confidence component of the loop, on its own (used to
reason about the selection separately from the candidate list). -/
def runBest (bc : Option String) (m : ℚ) : List Prediction → Option String × ℚ
  | [] => (bc, m)
  | p :: ps =>
    match mapOf p with
    | some c => if pct p > m then runBest (some c) (pct p) ps else runBest bc m ps
    | none => runBest bc m ps

/-- `detect_language_afrolid` from `mms_server.py`, over the oracle
environment: short text, an unavailable pipeline, a raised classifier error
and an empty (falsy) raw result each soft-fail to `_fallback_detection`;
otherwise the predictions are normalized, mapped and scanned for the best
supported candidate. -/
def detect_language_afrolid (env : DetectEnv) (text : String) : DetectionResult :=
  let cleaned_text := strStrip text
  if cleaned_text.length < 3 then fallback_detection env "insufficient_text" []
  else if env.pipelineAvailable = false then
    fallback_detection env "pipeline_unavailable" []
  else
    match env.call with
    | .raises => fallback_detection env "pipeline_runtime_error" []
    | .returns raw =>
      if raw.isFalsy then fallback_detection env "no_predictions" []
      else
        let predictions := raw.normalize
        let final := predictions.foldl processPrediction ⟨[], none, 0⟩
        match final.best_code with
        | none => fallback_detection env "no_supported_language" final.candidates
        | some best_code =>
          { language := get_language_name best_code
          , code := best_code
          , confidence := round2 (min final.best_confidence 99)
          , greeting := random_choice (get_greetings best_code) env.pick
          , source := "afrolid"
          , model := some AFROLID_MODEL_ID
          , reason := none
          , candidates := final.candidates }

/-- Result of one `_load_afrolid_pipeline` call against the module-global
`afrolid_pipeline`: the value returned, the new global, and whether this
call attempted a model load (entered the locked load block). -/
structure LoadResult where
  returned : Option Unit
  state : Option Unit
  attempted : Bool
deriving DecidableEq

/-- `_load_afrolid_pipeline` from `mms_server.py` as a step function on the
`afrolid_pipeline` global.  The pipeline handle is abstracted to `Unit`;
`loadSucceeds` is the outcome of the `pipeline(...)` construction attempted
by this call.  On failure the global is left `None` (the except branch
stores `None` back). -/
def load_afrolid_pipeline (transformersAvailable loadSucceeds : Bool)
    (afrolid_pipeline : Option Unit) : LoadResult :=
  if !transformersAvailable then ⟨none, afrolid_pipeline, false⟩
  else
    match afrolid_pipeline with
    | some p => ⟨some p, some p, false⟩
    | none =>
      if loadSucceeds then ⟨some (), some (), true⟩
      else ⟨none, none, true⟩

end Mms

namespace Piper

/-- `SA_VOICES` from `piper_server.py` (voice tag to model file). -/
def SA_VOICES : List (String × String) :=
  [("twi", "kasanoma-twi-medium.onnx"),
   ("chichewa", "kasanoma-chichewa-medium.onnx"),
   ("makhuwa", "kasanoma-makhuwa-medium.onnx")]

/-- Response of the Piper `/tts-stream` handler: always JSON, never binary
audio (the placeholder body of `piper_server.py` has no audio path). -/
inductive PiperResponse where
  | err (status : Nat) (error : String)
  | ok (status : Nat) (message : String) (voice_used : String) (text_length : Nat)
deriving DecidableEq

/-- The `/tts-stream` handler of `piper_server.py`: `voice` defaults to
"twi", empty text gives HTTP 400, otherwise a JSON payload echoing the
message, the voice used and the text length. -/
def text_to_speech_stream (text : String) (voiceField : Option String) : PiperResponse :=
  let voice := voiceField.getD "twi"
  if text = "" then .err 400 "Text is required"
  else
    .ok 200 ("TTS would generate: \"" ++ text ++ "\" with voice: " ++ voice)
      voice text.length

end Piper

/-! Concrete oracle environments used by witnesses and counterexamples. -/

/-- Dispatcher environment in which every back end fails (both generators
return `None` on every input). -/
def envAllFail : Mms.TTSEnv := ⟨true, fun _ _ => none, fun _ _ => none⟩

/-- Dispatcher environment in which both back ends succeed with
distinguishable payloads. -/
def envBothSucceed : Mms.TTSEnv := ⟨true, fun _ _ => some [1], fun _ _ => some [2]⟩

/-- Detection environment whose classifier returns a single supported label
with score exactly zero. -/
def envZeroScore : Mms.DetectEnv :=
  ⟨true, true, .returns (.listOfDicts [⟨"zul", 0⟩]), 0⟩

/-- Detection environment whose classifier returns a dominant supported
label and an unmapped one. -/
def envZuluBest : Mms.DetectEnv :=
  ⟨true, true, .returns (.listOfDicts [⟨"ZUL", 9 / 10⟩, ⟨"xyz", 1 / 2⟩]), 1⟩

/-- Detection environment with no transformers support at all. -/
def envNoPipeline : Mms.DetectEnv := ⟨false, false, .raises, 0⟩

/-! Helper lemmas about the silent WAV payload. -/

namespace Mms

theorem flatten_replicate_pair (n : Nat) :
    (List.replicate n ([0, 0] : List Nat)).flatten = List.replicate (2 * n) 0 := by
  induction n with
  | zero => rfl
  | succ k ih => rw [List.replicate_succ, List.flatten_cons, ih, Nat.mul_succ]; rfl

theorem generate_silent_audio_eq :
    generate_silent_audio = wavHeader 1 2 16000 16000 ++ List.replicate 32000 0 := by
  show wavHeader 1 2 16000 16000 ++ (List.replicate 16000 ([0, 0] : List Nat)).flatten = _
  rw [flatten_replicate_pair]

theorem wavHeader_silent_length : (wavHeader 1 2 16000 16000).length = 44 := rfl

theorem generate_silent_audio_length : generate_silent_audio.length = 44 + 32000 := by
  rw [generate_silent_audio_eq, List.length_append, wavHeader_silent_length,
    List.length_replicate]

theorem generate_silent_audio_ne_nil : generate_silent_audio ≠ [] := by
  intro h
  have := generate_silent_audio_length
  rw [h] at this
  simp at this

theorem generate_silent_audio_take :
    generate_silent_audio.take 44 = wavHeader 1 2 16000 16000 := by
  rw [generate_silent_audio_eq, ← wavHeader_silent_length, List.take_left]

theorem generate_silent_audio_drop :
    generate_silent_audio.drop 44 = List.replicate 32000 0 := by
  rw [generate_silent_audio_eq, ← wavHeader_silent_length, List.drop_left]

/-- The spec's startup invariant: the dispatcher's code table and the
LanguageProfile table have exactly the same key set. -/
theorem sa_codes_lookup_none_iff (c : String) :
    SA_LANGUAGE_CODES.lookup c = none ↔ SA_LANGUAGE_METADATA.lookup c = none := by
  simp only [SA_LANGUAGE_CODES, SA_LANGUAGE_METADATA, List.lookup]
  repeat' split
  all_goals simp_all

/-- A code without a profile entry is not gTTS-supported either. -/
theorem gtts_not_supported_of_unknown (c : String)
    (h : SA_LANGUAGE_METADATA.lookup c = none) :
    c ∉ GTTS_SUPPORTED := by
  intro hc
  simp [GTTS_SUPPORTED] at hc
  rcases hc with h1 | h1 <;> subst h1 <;> simp [SA_LANGUAGE_METADATA, List.lookup] at h

end Mms

/-- C1: for every language code and non-empty text, the `/tts-stream`
dispatcher of `mms_server.py` answers with a binary audio body whose MIME
type is `audio/wav` or `audio/mpeg`, and — granted that a back end that
succeeds hands back a non-empty payload, while failures and unavailability
are `none` — that body is never empty, even when every back end fails. -/
theorem tts_stream_nonempty_audio (env : Mms.TTSEnv) (text lang_code : String)
    (htext : text ≠ "")
    (hmms : ∀ t l b, env.mmsResult t l = some b → b ≠ [])
    (hgtts : ∀ t l b, env.gttsResult t l = some b → b ≠ []) :
    ∃ body mime, Mms.text_to_speech_stream env text lang_code = .audio body mime ∧
      body ≠ [] ∧ (mime = "audio/wav" ∨ mime = "audio/mpeg") := by
  simp only [Mms.text_to_speech_stream]
  rw [if_neg htext]
  split
  next b heq =>
    refine ⟨b, "audio/wav", rfl, ?_, Or.inl rfl⟩
    split at heq
    · exact hmms _ _ _ heq
    · simp at heq
  next heq =>
    split
    next b heq2 =>
      refine ⟨b, "audio/mpeg", rfl, ?_, Or.inr rfl⟩
      split at heq2
      · exact hgtts _ _ _ heq2
      · simp at heq2
    next heq2 =>
      exact ⟨Mms.generate_silent_audio, "audio/wav", rfl,
        Mms.generate_silent_audio_ne_nil, Or.inl rfl⟩

/-- C1 witness: the guarantee instantiated at a total-failure environment,
text "hello" and the supported code "zu". -/
theorem tts_stream_nonempty_audio_witness :
    ("hello" : String) ≠ "" ∧
    (∀ t l b, envAllFail.mmsResult t l = some b → b ≠ []) ∧
    (∀ t l b, envAllFail.gttsResult t l = some b → b ≠ []) ∧
    ∃ body mime, Mms.text_to_speech_stream envAllFail "hello" "zu" = .audio body mime ∧
      body ≠ [] ∧ (mime = "audio/wav" ∨ mime = "audio/mpeg") := by
  refine ⟨by decide, ?_, ?_, ?_⟩
  · intro t l b h; simp [envAllFail] at h
  · intro t l b h; simp [envAllFail] at h
  · exact tts_stream_nonempty_audio envAllFail "hello" "zu" (by decide)
      (by intro t l b h; simp [envAllFail] at h)
      (by intro t l b h; simp [envAllFail] at h)

/-- C2: when every back end fails or is unavailable (both generators yield
`None`), the dispatcher returns exactly the one-second silent WAV: MIME
`audio/wav`, a 44-byte PCM header for 16-bit mono 16 kHz audio, followed by
32000 zero bytes of payload. -/
theorem tts_stream_total_failure_silence (env : Mms.TTSEnv) (text lang_code : String)
    (htext : text ≠ "")
    (hmms : ∀ t l, env.mmsResult t l = none)
    (hgtts : ∀ t l, env.gttsResult t l = none) :
    Mms.text_to_speech_stream env text lang_code =
      .audio Mms.generate_silent_audio "audio/wav" ∧
    Mms.generate_silent_audio.length = 44 + 32000 ∧
    Mms.generate_silent_audio.take 44 = Mms.wavHeader 1 2 16000 16000 ∧
    Mms.generate_silent_audio.drop 44 = List.replicate 32000 0 := by
  refine ⟨?_, Mms.generate_silent_audio_length, Mms.generate_silent_audio_take,
    Mms.generate_silent_audio_drop⟩
  simp only [Mms.text_to_speech_stream]
  rw [if_neg htext]
  simp [hmms, hgtts]

/-- C2 witness: total failure at text "hello", language "zu". -/
theorem tts_stream_total_failure_silence_witness :
    ("hello" : String) ≠ "" ∧
    (∀ t l, envAllFail.mmsResult t l = none) ∧
    (∀ t l, envAllFail.gttsResult t l = none) ∧
    Mms.text_to_speech_stream envAllFail "hello" "zu" =
      .audio Mms.generate_silent_audio "audio/wav" ∧
    Mms.generate_silent_audio.length = 44 + 32000 := by
  have h := tts_stream_total_failure_silence envAllFail "hello" "zu" (by decide)
    (fun _ _ => rfl) (fun _ _ => rfl)
  exact ⟨by decide, fun _ _ => rfl, fun _ _ => rfl, h.1, h.2.1⟩

/-- C3: for every back-end environment and every language code, the
dispatcher rejects empty text with HTTP 400 and a JSON error body; since
the result is the same for every environment, no back end is ever
consulted. -/
theorem tts_stream_empty_text_400 (env : Mms.TTSEnv) (lang_code : String) :
    Mms.text_to_speech_stream env "" lang_code = .json 400 "Text is required" := rfl

/-- C10: the Piper `/tts-stream` handler never returns binary audio: empty
text yields HTTP 400 with a JSON error, and any non-empty text yields HTTP
200 with a JSON body whose `voice_used` is the requested voice (default
"twi") and whose `text_length` is the length of the input text. -/
theorem piper_tts_stream_json_only (text : String) (voiceField : Option String) :
    (text = "" → Piper.text_to_speech_stream text voiceField =
      .err 400 "Text is required") ∧
    (text ≠ "" → Piper.text_to_speech_stream text voiceField =
      .ok 200 ("TTS would generate: \"" ++ text ++ "\" with voice: " ++ voiceField.getD "twi")
        (voiceField.getD "twi") text.length) := by
  constructor
  · intro h; simp [Piper.text_to_speech_stream, h]
  · intro h; simp [Piper.text_to_speech_stream, h]

/-- C10 witness: the handler at text "hello" and voice "chichewa". -/
theorem piper_tts_stream_json_only_witness :
    ("hello" : String) ≠ "" ∧
    Piper.text_to_speech_stream "hello" (some "chichewa") =
      .ok 200 ("TTS would generate: \"" ++ "hello" ++ "\" with voice: " ++
        (some "chichewa").getD "twi") ((some "chichewa").getD "twi") ("hello").length :=
  ⟨by decide, (piper_tts_stream_json_only "hello" (some "chichewa")).2 (by decide)⟩

/-- C9 counterexample: with both back ends succeeding, the unknown code
"qq" (no LanguageProfile entry) is served by the MMS stage with English's
model, while a genuine "en" request skips MMS and is served by gTTS — the
two requests are not handled alike, refuting "handled exactly as an English
request would be at every stage". -/
theorem tts_unknown_code_counterexample :
    Mms.SA_LANGUAGE_METADATA.lookup "qq" = none ∧
    Mms.text_to_speech_stream envBothSucceed "hi" "qq" = .audio [1] "audio/wav" ∧
    Mms.text_to_speech_stream envBothSucceed "hi" "en" = .audio [2] "audio/mpeg" ∧
    Mms.text_to_speech_stream envBothSucceed "hi" "qq" ≠
      Mms.text_to_speech_stream envBothSucceed "hi" "en" := by
  refine ⟨by decide, by decide, by decide, by decide⟩

/-- C9 (amended): a languageCode with no LanguageProfile entry falls back
to English only at the native-model stage — the MMS model used is "eng",
exactly the one an English request would use there — but unlike "en" the
unknown code is not eligible for the cloud stage, so the response is the
native attempt on "eng" or, failing that, silence (never gTTS). -/
theorem tts_unknown_code_amended (env : Mms.TTSEnv) (text c : String)
    (htext : text ≠ "") (h : Mms.SA_LANGUAGE_METADATA.lookup c = none) :
    Mms.text_to_speech_stream env text c =
      match (if env.mmsAvailable then env.mmsResult text "eng" else none) with
      | some b => Mms.TTSResponse.audio b "audio/wav"
      | none => Mms.TTSResponse.audio Mms.generate_silent_audio "audio/wav" := by
  have hcode : Mms.SA_LANGUAGE_CODES.lookup c = none :=
    (Mms.sa_codes_lookup_none_iff c).2 h
  have hg : c ∉ Mms.GTTS_SUPPORTED :=
    Mms.gtts_not_supported_of_unknown c h
  simp only [Mms.text_to_speech_stream]
  rw [if_neg htext]
  cases hm : env.mmsAvailable
  · simp [hcode, hg, hm]
  · cases hr : env.mmsResult text "eng" <;> simp [hcode, hg, hm, hr]

/-- C9 amended witness: the unknown code "qq" at a fully available
environment is served by the English MMS model. -/
theorem tts_unknown_code_amended_witness :
    ("hi" : String) ≠ "" ∧ Mms.SA_LANGUAGE_METADATA.lookup "qq" = none ∧
    Mms.text_to_speech_stream envBothSucceed "hi" "qq" =
      (match (if envBothSucceed.mmsAvailable then envBothSucceed.mmsResult "hi" "eng" else none) with
       | some b => Mms.TTSResponse.audio b "audio/wav"
       | none => Mms.TTSResponse.audio Mms.generate_silent_audio "audio/wav") :=
  ⟨by decide, by decide, tts_unknown_code_amended envBothSucceed "hi" "qq" (by decide) (by decide)⟩


namespace Mms

theorem pct_nonneg (p : Prediction) : 0 ≤ pct p := le_max_right _ _

theorem pct_le_100 (p : Prediction) : pct p ≤ 100 :=
  max_le (min_le_right _ _) (by norm_num)

theorem roundHalfEven_nonneg (q : ℚ) (h : 0 ≤ q) : 0 ≤ roundHalfEven q := by
  have hf : (0 : ℤ) ≤ ⌊q⌋ := Int.floor_nonneg.2 h
  unfold roundHalfEven
  dsimp only
  split_ifs <;> omega

theorem roundHalfEven_le (q : ℚ) (n : ℤ) (h : q ≤ n) : roundHalfEven q ≤ n := by
  have hf : ⌊q⌋ ≤ n := by
    have := Int.floor_le_floor (α := ℚ) h
    rwa [Int.floor_intCast] at this
  have hfq : (⌊q⌋ : ℚ) ≤ q := Int.floor_le q
  unfold roundHalfEven
  dsimp only
  split_ifs with h1 h2 h3
  · exact hf
  · have hlt : (⌊q⌋ : ℚ) < (n : ℚ) := by linarith
    have : ⌊q⌋ < n := by exact_mod_cast hlt
    omega
  · exact hf
  · have hge : (1 : ℚ) / 2 ≤ q - ⌊q⌋ := not_lt.1 h1
    have hlt : (⌊q⌋ : ℚ) < (n : ℚ) := by linarith
    have : ⌊q⌋ < n := by exact_mod_cast hlt
    omega

theorem round2_nonneg (q : ℚ) (h : 0 ≤ q) : 0 ≤ round2 q := by
  unfold round2
  have h1 : (0 : ℤ) ≤ roundHalfEven (q * 100) :=
    roundHalfEven_nonneg _ (by positivity)
  have h2 : (0 : ℚ) ≤ (roundHalfEven (q * 100) : ℚ) := by exact_mod_cast h1
  positivity

theorem round2_le_99 (q : ℚ) (h : q ≤ 99) : round2 q ≤ 99 := by
  unfold round2
  have h1 : roundHalfEven (q * 100) ≤ (9900 : ℤ) := by
    apply roundHalfEven_le
    push_cast
    linarith
  have h2 : (roundHalfEven (q * 100) : ℚ) ≤ 9900 := by exact_mod_cast h1
  linarith

theorem get_greetings_ne_nil (code : String) : get_greetings code ≠ [] := by
  unfold get_greetings
  dsimp only
  split_ifs with h
  · simp
  · simpa [List.isEmpty_iff] using h

theorem random_choice_mem (l : List String) (pick : Nat) (h : l ≠ []) :
    random_choice l pick ∈ l := by
  unfold random_choice
  have hlen : 0 < l.length := List.length_pos.2 h
  have hm : pick % l.length < l.length := Nat.mod_lt _ hlen
  rw [List.getD_eq_getElem?_getD, List.getElem?_eq_getElem hm]
  simp

theorem runBest_nil (bc : Option String) (m : ℚ) : runBest bc m [] = (bc, m) := rfl

theorem runBest_cons (bc : Option String) (m : ℚ) (p : Prediction)
    (ps : List Prediction) :
    runBest bc m (p :: ps) =
      match mapOf p with
      | some c => if pct p > m then runBest (some c) (pct p) ps else runBest bc m ps
      | none => runBest bc m ps := rfl

theorem processPrediction_eq (s : LoopState) (item : Prediction) :
    processPrediction s item =
      match mapOf item with
      | some c =>
        if pct item > s.best_confidence then
          ⟨s.candidates ++ [toCandidate item], some c, pct item⟩
        else
          ⟨s.candidates ++ [toCandidate item], s.best_code, s.best_confidence⟩
      | none => ⟨s.candidates ++ [toCandidate item], s.best_code, s.best_confidence⟩ := rfl

theorem foldl_process_eq (preds : List Prediction) : ∀ s : LoopState,
    preds.foldl processPrediction s =
      ⟨s.candidates ++ preds.map toCandidate,
       (runBest s.best_code s.best_confidence preds).1,
       (runBest s.best_code s.best_confidence preds).2⟩ := by
  induction preds with
  | nil => intro s; cases s; simp [runBest_nil]
  | cons p ps ih =>
    intro s
    rw [List.foldl_cons, ih, runBest_cons, processPrediction_eq]
    cases hm : mapOf p with
    | none => dsimp only; simp
    | some c =>
      dsimp only
      by_cases hgt : pct p > s.best_confidence
      · simp [hgt]
      · simp [hgt]

theorem runBest_keep : ∀ (ps : List Prediction) (bc : Option String) (m : ℚ),
    (∀ q ∈ ps, (mapOf q).isSome → pct q ≤ m) → runBest bc m ps = (bc, m) := by
  intro ps
  induction ps with
  | nil => intro bc m _; rfl
  | cons p t ih =>
    intro bc m h
    rw [runBest_cons]
    cases hm : mapOf p with
    | none => exact ih bc m (fun q hq hs => h q (List.mem_cons_of_mem _ hq) hs)
    | some ch =>
      dsimp only
      have hle : pct p ≤ m := h p (List.mem_cons_self _ _) (by rw [hm]; rfl)
      rw [if_neg (not_lt.2 hle)]
      exact ih bc m (fun q hq hs => h q (List.mem_cons_of_mem _ hq) hs)

theorem runBest_nonneg : ∀ (ps : List Prediction) (bc : Option String) (m : ℚ),
    0 ≤ m → 0 ≤ (runBest bc m ps).2 := by
  intro ps
  induction ps with
  | nil => intro bc m h; exact h
  | cons p t ih =>
    intro bc m h
    rw [runBest_cons]
    cases hm : mapOf p with
    | none => exact ih bc m h
    | some ch =>
      dsimp only
      by_cases hgt : pct p > m
      · rw [if_pos hgt]; exact ih _ _ (pct_nonneg p)
      · rw [if_neg hgt]; exact ih bc m h

theorem runBest_fst_mapped : ∀ (ps : List Prediction) (bc : Option String) (m : ℚ)
    (c : String), (runBest bc m ps).1 = some c →
    bc = some c ∨ ∃ q ∈ ps, mapOf q = some c := by
  intro ps
  induction ps with
  | nil => intro bc m c h; exact Or.inl h
  | cons p t ih =>
    intro bc m c h
    rw [runBest_cons] at h
    cases hm : mapOf p with
    | none =>
      rw [hm] at h
      rcases ih bc m c h with h1 | ⟨q, hq, hq2⟩
      · exact Or.inl h1
      · exact Or.inr ⟨q, List.mem_cons_of_mem _ hq, hq2⟩
    | some ch =>
      rw [hm] at h
      dsimp only at h
      by_cases hgt : pct p > m
      · rw [if_pos hgt] at h
        rcases ih (some ch) (pct p) c h with h1 | ⟨q, hq, hq2⟩
        · refine Or.inr ⟨p, List.mem_cons_self _ _, ?_⟩
          rw [hm, h1]
        · exact Or.inr ⟨q, List.mem_cons_of_mem _ hq, hq2⟩
      · rw [if_neg hgt] at h
        rcases ih bc m c h with h1 | ⟨q, hq, hq2⟩
        · exact Or.inl h1
        · exact Or.inr ⟨q, List.mem_cons_of_mem _ hq, hq2⟩

theorem runBest_dominant : ∀ (ps : List Prediction) (bc : Option String) (m : ℚ)
    (p : Prediction) (c : String), p ∈ ps → mapOf p = some c → m < pct p →
    (∀ q ∈ ps, (mapOf q).isSome → pct q ≤ pct p) →
    (∀ q ∈ ps, ∀ c', mapOf q = some c' → pct q = pct p → c' = c) →
    (runBest bc m ps).1 = some c := by
  intro ps
  induction ps with
  | nil => intro bc m p c hp; exact absurd hp (List.not_mem_nil p)
  | cons h t ih =>
    intro bc m p c hp hmap hgt hmax htie
    rw [runBest_cons]
    cases hm : mapOf h with
    | none =>
      have hp' : p ∈ t := by
        rcases List.mem_cons.1 hp with h1 | h1
        · subst h1; rw [hmap] at hm; exact absurd hm (by simp)
        · exact h1
      exact ih bc m p c hp' hmap hgt
        (fun q hq hs => hmax q (List.mem_cons_of_mem _ hq) hs)
        (fun q hq c' h1 h2 => htie q (List.mem_cons_of_mem _ hq) c' h1 h2)
    | some ch =>
      dsimp only
      by_cases hgth : pct h > m
      · rw [if_pos hgth]
        by_cases heq : pct h = pct p
        · have hc : ch = c := htie h (List.mem_cons_self _ _) ch hm heq
          subst hc
          rw [heq]
          rw [runBest_keep t (some ch) (pct p)
            (fun q hq hs => hmax q (List.mem_cons_of_mem _ hq) hs)]
        · have hlt : pct h < pct p :=
            lt_of_le_of_ne (hmax h (List.mem_cons_self _ _) (by rw [hm]; rfl)) heq
          have hp' : p ∈ t := by
            rcases List.mem_cons.1 hp with h1 | h1
            · subst h1; exact absurd rfl heq
            · exact h1
          exact ih (some ch) (pct h) p c hp' hmap hlt
            (fun q hq hs => hmax q (List.mem_cons_of_mem _ hq) hs)
            (fun q hq c' h1 h2 => htie q (List.mem_cons_of_mem _ hq) c' h1 h2)
      · rw [if_neg hgth]
        have hp' : p ∈ t := by
          rcases List.mem_cons.1 hp with h1 | h1
          · subst h1; exact absurd hgt (by simpa using hgth)
          · exact h1
        exact ih bc m p c hp' hmap hgt
          (fun q hq hs => hmax q (List.mem_cons_of_mem _ hq) hs)
          (fun q hq c' h1 h2 => htie q (List.mem_cons_of_mem _ hq) c' h1 h2)

theorem runBest_stay_none : ∀ (ps : List Prediction),
    (∀ q ∈ ps, mapOf q = none ∨ pct q = 0) → runBest none 0 ps = (none, 0) := by
  intro ps
  induction ps with
  | nil => intro _; rfl
  | cons p t ih =>
    intro h
    rw [runBest_cons]
    cases hm : mapOf p with
    | none => exact ih (fun q hq => h q (List.mem_cons_of_mem _ hq))
    | some ch =>
      dsimp only
      rcases h p (List.mem_cons_self _ _) with h1 | h1
      · rw [h1] at hm; exact absurd hm (by simp)
      · rw [h1, if_neg (lt_irrefl 0)]
        exact ih (fun q hq => h q (List.mem_cons_of_mem _ hq))

end Mms

namespace Mms

/-- Shared helper: every fallback result's greeting is drawn from the
greeting set of its own (English) code. -/
theorem fallback_greeting_mem (env : DetectEnv) (reason : String)
    (cands : List Candidate) :
    (fallback_detection env reason cands).greeting ∈
      get_greetings (fallback_detection env reason cands).code :=
  random_choice_mem _ _ (get_greetings_ne_nil _)

end Mms

/-- C4: `detect_language_afrolid` is total and fails soft: for stripped text
shorter than 3 characters, an unavailable classifier, a classifier that
throws, or a classifier returning no predictions, it returns the fixed
fallback result — code "en", confidence exactly 55.0, source "fallback" —
with a reason code naming the fallback path. -/
theorem detect_language_fallback_soft (env : Mms.DetectEnv) (text : String)
    (h : (Mms.strStrip text).length < 3 ∨ env.pipelineAvailable = false ∨
      env.call = .raises ∨
      ∃ raw, env.call = .returns raw ∧ raw.isFalsy = true) :
    ∃ reason, reason ∈ ["insufficient_text", "pipeline_unavailable",
        "pipeline_runtime_error", "no_predictions"] ∧
      Mms.detect_language_afrolid env text = Mms.fallback_detection env reason [] ∧
      (Mms.detect_language_afrolid env text).code = "en" ∧
      (Mms.detect_language_afrolid env text).confidence = 55 ∧
      (Mms.detect_language_afrolid env text).source = "fallback" := by
  by_cases h1 : (Mms.strStrip text).length < 3
  · have heq : Mms.detect_language_afrolid env text =
        Mms.fallback_detection env "insufficient_text" [] := by
      simp [Mms.detect_language_afrolid, h1]
    exact ⟨"insufficient_text", by simp, heq, by rw [heq]; rfl, by rw [heq]; rfl, by rw [heq]; rfl⟩
  by_cases h2 : env.pipelineAvailable = false
  · have heq : Mms.detect_language_afrolid env text =
        Mms.fallback_detection env "pipeline_unavailable" [] := by
      simp [Mms.detect_language_afrolid, h1, h2]
    exact ⟨"pipeline_unavailable", by simp, heq, by rw [heq]; rfl, by rw [heq]; rfl, by rw [heq]; rfl⟩
  rcases h with h1' | h2' | h3 | ⟨raw, h4, h5⟩
  · exact absurd h1' h1
  · exact absurd h2' h2
  · have heq : Mms.detect_language_afrolid env text =
        Mms.fallback_detection env "pipeline_runtime_error" [] := by
      simp [Mms.detect_language_afrolid, h1, h2, h3]
    exact ⟨"pipeline_runtime_error", by simp, heq, by rw [heq]; rfl, by rw [heq]; rfl, by rw [heq]; rfl⟩
  · have heq : Mms.detect_language_afrolid env text =
        Mms.fallback_detection env "no_predictions" [] := by
      simp [Mms.detect_language_afrolid, h1, h2, h4, h5]
    exact ⟨"no_predictions", by simp, heq, by rw [heq]; rfl, by rw [heq]; rfl, by rw [heq]; rfl⟩

/-- C4 witness: empty text against an environment with no classifier
support at all. -/
theorem detect_language_fallback_soft_witness :
    ((Mms.strStrip "").length < 3 ∨ envNoPipeline.pipelineAvailable = false ∨
      envNoPipeline.call = .raises ∨
      ∃ raw, envNoPipeline.call = .returns raw ∧ raw.isFalsy = true) ∧
    ∃ reason, reason ∈ ["insufficient_text", "pipeline_unavailable",
        "pipeline_runtime_error", "no_predictions"] ∧
      Mms.detect_language_afrolid envNoPipeline "" =
        Mms.fallback_detection envNoPipeline reason [] ∧
      (Mms.detect_language_afrolid envNoPipeline "").code = "en" ∧
      (Mms.detect_language_afrolid envNoPipeline "").confidence = 55 ∧
      (Mms.detect_language_afrolid envNoPipeline "").source = "fallback" :=
  ⟨Or.inl (by decide),
   detect_language_fallback_soft envNoPipeline "" (Or.inl (by decide))⟩

/-- C6: whatever the input text and classifier behaviour, the confidence
reported by `detect_language_afrolid` lies in [0, 99]: classifier scores
are clamped into [0, 100], the reported value is capped at 99.0, and the
fallback confidence is 55.0. -/
theorem detect_confidence_in_range (env : Mms.DetectEnv) (text : String) :
    0 ≤ (Mms.detect_language_afrolid env text).confidence ∧
    (Mms.detect_language_afrolid env text).confidence ≤ 99 := by
  by_cases h1 : (Mms.strStrip text).length < 3
  · simp [Mms.detect_language_afrolid, h1, Mms.fallback_detection]
    norm_num
  by_cases h2 : env.pipelineAvailable = false
  · simp [Mms.detect_language_afrolid, h1, h2, Mms.fallback_detection]
    norm_num
  cases hcall : env.call with
  | raises =>
    simp [Mms.detect_language_afrolid, h1, h2, hcall, Mms.fallback_detection]
    norm_num
  | returns raw =>
    by_cases h3 : raw.isFalsy = true
    · simp [Mms.detect_language_afrolid, h1, h2, hcall, h3, Mms.fallback_detection]
      norm_num
    · cases hbc : (Mms.runBest none 0 raw.normalize).1 with
      | none =>
        simp [Mms.detect_language_afrolid, h1, h2, hcall, h3, Mms.foldl_process_eq,
          hbc, Mms.fallback_detection]
        norm_num
      | some bc =>
        have hconf : (Mms.detect_language_afrolid env text).confidence =
            Mms.round2 (min (Mms.runBest none 0 raw.normalize).2 99) := by
          simp [Mms.detect_language_afrolid, h1, h2, hcall, h3,
            Mms.foldl_process_eq, hbc]
        rw [hconf]
        have h0 : 0 ≤ (Mms.runBest none 0 raw.normalize).2 :=
          Mms.runBest_nonneg _ _ _ le_rfl
        exact ⟨Mms.round2_nonneg _ (le_min h0 (by norm_num)),
          Mms.round2_le_99 _ (min_le_right _ _)⟩

/-- C7: for every input and every outcome of the random choice, the
greeting of the detection result is an element of the greeting set of the
returned code. -/
theorem detect_greeting_from_profile (env : Mms.DetectEnv) (text : String) :
    (Mms.detect_language_afrolid env text).greeting ∈
      Mms.get_greetings (Mms.detect_language_afrolid env text).code := by
  by_cases h1 : (Mms.strStrip text).length < 3
  · have heq : Mms.detect_language_afrolid env text =
        Mms.fallback_detection env "insufficient_text" [] := by
      simp [Mms.detect_language_afrolid, h1]
    rw [heq]; exact Mms.fallback_greeting_mem env _ _
  by_cases h2 : env.pipelineAvailable = false
  · have heq : Mms.detect_language_afrolid env text =
        Mms.fallback_detection env "pipeline_unavailable" [] := by
      simp [Mms.detect_language_afrolid, h1, h2]
    rw [heq]; exact Mms.fallback_greeting_mem env _ _
  cases hcall : env.call with
  | raises =>
    have heq : Mms.detect_language_afrolid env text =
        Mms.fallback_detection env "pipeline_runtime_error" [] := by
      simp [Mms.detect_language_afrolid, h1, h2, hcall]
    rw [heq]; exact Mms.fallback_greeting_mem env _ _
  | returns raw =>
    by_cases h3 : raw.isFalsy = true
    · have heq : Mms.detect_language_afrolid env text =
          Mms.fallback_detection env "no_predictions" [] := by
        simp [Mms.detect_language_afrolid, h1, h2, hcall, h3]
      rw [heq]; exact Mms.fallback_greeting_mem env _ _
    · cases hbc : (Mms.runBest none 0 raw.normalize).1 with
      | none =>
        have heq : Mms.detect_language_afrolid env text =
            Mms.fallback_detection env "no_supported_language"
              (raw.normalize.map Mms.toCandidate) := by
          simp [Mms.detect_language_afrolid, h1, h2, hcall, h3,
            Mms.foldl_process_eq, hbc]
        rw [heq]; exact Mms.fallback_greeting_mem env _ _
      | some bc =>
        have hg : (Mms.detect_language_afrolid env text).greeting =
            Mms.random_choice (Mms.get_greetings bc) env.pick := by
          simp [Mms.detect_language_afrolid, h1, h2, hcall, h3,
            Mms.foldl_process_eq, hbc]
        have hc : (Mms.detect_language_afrolid env text).code = bc := by
          simp [Mms.detect_language_afrolid, h1, h2, hcall, h3,
            Mms.foldl_process_eq, hbc]
        rw [hg, hc]
        exact Mms.random_choice_mem _ _ (Mms.get_greetings_ne_nil _)

/-- C5 counterexample: a classifier output whose single prediction maps to
the supported code "zu" but carries score 0.  It is trivially the mapped
candidate with the strictly highest score, yet the loop's strict
`score_percent > best_confidence` test (against the initial 0.0) never
fires, so the selected code is the fallback "en", not "zu" — refuting the
claim as stated. -/
theorem detect_selection_zero_score_counterexample :
    Mms.mapOf ⟨"zul", 0⟩ = some "zu" ∧
    (Mms.PredictionsRaw.listOfDicts [⟨"zul", 0⟩]).normalize = [⟨"zul", 0⟩] ∧
    Mms.detect_language_afrolid envZeroScore "sawubona" =
      Mms.fallback_detection envZeroScore "no_supported_language"
        [⟨"zul", 0, some "zu", some "Zulu"⟩] ∧
    (Mms.detect_language_afrolid envZeroScore "sawubona").code = "en" ∧
    (Mms.detect_language_afrolid envZeroScore "sawubona").code ≠ "zu" := by
  have hcond : ¬ ((Mms.strStrip "sawubona").length < 3) := by decide
  have hlk : List.lookup "zul" Mms.AFROLID_LABEL_TO_CODE = some "zu" := by decide
  have hlow : Mms.strLower "zul" = "zul" := by decide
  have hpct : Mms.pct ⟨"zul", (0 : ℚ)⟩ = 0 := by simp [Mms.pct]
  have hr : Mms.round2 (0 : ℚ) = 0 := by norm_num [Mms.round2, Mms.roundHalfEven]
  have hname : Mms.get_language_name "zu" = "Zulu" := by decide
  have heq : Mms.detect_language_afrolid envZeroScore "sawubona" =
      Mms.fallback_detection envZeroScore "no_supported_language"
        [⟨"zul", 0, some "zu", some "Zulu"⟩] := by
    simp [Mms.detect_language_afrolid, envZeroScore, Mms.PredictionsRaw.isFalsy,
      Mms.PredictionsRaw.normalize, Mms.processPrediction,
      Mms.DetectEnv.pipelineAvailable, Mms.toCandidate, Mms.mapOf,
      hlk, hpct, hr, hname, hcond, hlow]
  refine ⟨by decide, rfl, heq, by rw [heq]; rfl, by rw [heq]; decide⟩

/-- C5 (amended): on a successful classifier call, the full candidate list
(mapped or not) is returned; a selected code always comes from a mapped
label, and the mapped candidate with the strictly highest score is selected
provided that score is positive; if no label maps with a positive clamped
score (in particular if no label maps at all), the fallback tagged
"no_supported_language" with the full candidate list is returned. -/
theorem detect_selection_amended (env : Mms.DetectEnv) (text : String)
    (raw : Mms.PredictionsRaw)
    (hlen : ¬ (Mms.strStrip text).length < 3)
    (hpipe : ¬ env.pipelineAvailable = false)
    (hcall : env.call = .returns raw)
    (hne : ¬ raw.isFalsy = true) :
    (Mms.detect_language_afrolid env text).candidates =
      raw.normalize.map Mms.toCandidate ∧
    ((Mms.detect_language_afrolid env text).source = "afrolid" →
      ∃ q ∈ raw.normalize,
        Mms.mapOf q = some (Mms.detect_language_afrolid env text).code) ∧
    (∀ p ∈ raw.normalize, ∀ c, Mms.mapOf p = some c → 0 < Mms.pct p →
      (∀ q ∈ raw.normalize, (Mms.mapOf q).isSome → Mms.pct q ≤ Mms.pct p) →
      (∀ q ∈ raw.normalize, ∀ c', Mms.mapOf q = some c' →
        Mms.pct q = Mms.pct p → c' = c) →
      (Mms.detect_language_afrolid env text).code = c ∧
      (Mms.detect_language_afrolid env text).source = "afrolid") ∧
    ((∀ p ∈ raw.normalize, Mms.mapOf p = none ∨ Mms.pct p = 0) →
      Mms.detect_language_afrolid env text =
        Mms.fallback_detection env "no_supported_language"
          (raw.normalize.map Mms.toCandidate)) := by
  cases hbc : (Mms.runBest none 0 raw.normalize).1 with
  | none =>
    have heq : Mms.detect_language_afrolid env text =
        Mms.fallback_detection env "no_supported_language"
          (raw.normalize.map Mms.toCandidate) := by
      simp [Mms.detect_language_afrolid, hlen, hpipe, hcall, hne,
        Mms.foldl_process_eq, hbc]
    refine ⟨by rw [heq]; rfl, ?_, ?_, fun _ => heq⟩
    · intro hsrc
      rw [heq] at hsrc
      simp [Mms.fallback_detection] at hsrc
    · intro p hp c hmap hpos hmax htie
      have hd := Mms.runBest_dominant raw.normalize none 0 p c hp hmap hpos hmax htie
      rw [hbc] at hd
      exact absurd hd (by simp)
  | some bc =>
    have hcode : (Mms.detect_language_afrolid env text).code = bc := by
      simp [Mms.detect_language_afrolid, hlen, hpipe, hcall, hne,
        Mms.foldl_process_eq, hbc]
    have hsrc : (Mms.detect_language_afrolid env text).source = "afrolid" := by
      simp [Mms.detect_language_afrolid, hlen, hpipe, hcall, hne,
        Mms.foldl_process_eq, hbc]
    have hcands : (Mms.detect_language_afrolid env text).candidates =
        raw.normalize.map Mms.toCandidate := by
      simp [Mms.detect_language_afrolid, hlen, hpipe, hcall, hne,
        Mms.foldl_process_eq, hbc]
    refine ⟨hcands, ?_, ?_, ?_⟩
    · intro _
      rw [hcode]
      rcases Mms.runBest_fst_mapped raw.normalize none 0 bc hbc with h1 | h1
      · exact absurd h1 (by simp)
      · exact h1
    · intro p hp c hmap hpos hmax htie
      have hd := Mms.runBest_dominant raw.normalize none 0 p c hp hmap hpos hmax htie
      rw [hbc] at hd
      have hbceq : bc = c := by injection hd
      exact ⟨by rw [hcode, hbceq], hsrc⟩
    · intro hall
      have h0 := Mms.runBest_stay_none raw.normalize hall
      have hfst : (Mms.runBest none 0 raw.normalize).1 = none := by rw [h0]
      rw [hbc] at hfst
      exact absurd hfst (by simp)

/-- C5 amended witness: a dominant mapped label "ZUL" (score 0.9) beside an
unmapped "xyz" (score 0.5) selects code "zu" and keeps both candidates. -/
theorem detect_selection_amended_witness :
    (¬ (Mms.strStrip "sawubona kakhulu").length < 3) ∧
    (¬ envZuluBest.pipelineAvailable = false) ∧
    envZuluBest.call =
      .returns (.listOfDicts [⟨"ZUL", 9 / 10⟩, ⟨"xyz", 1 / 2⟩]) ∧
    (¬ (Mms.PredictionsRaw.listOfDicts
      [⟨"ZUL", 9 / 10⟩, ⟨"xyz", 1 / 2⟩]).isFalsy = true) ∧
    (Mms.detect_language_afrolid envZuluBest "sawubona kakhulu").candidates =
      (Mms.PredictionsRaw.listOfDicts
        [⟨"ZUL", 9 / 10⟩, ⟨"xyz", 1 / 2⟩]).normalize.map Mms.toCandidate ∧
    (Mms.detect_language_afrolid envZuluBest "sawubona kakhulu").code = "zu" := by
  have hpct1 : Mms.pct ⟨"ZUL", 9 / 10⟩ = 90 := by simp [Mms.pct]; norm_num
  have hpct2 : Mms.pct ⟨"xyz", 1 / 2⟩ = 50 := by simp [Mms.pct]; norm_num
  have hmap1 : Mms.mapOf ⟨"ZUL", 9 / 10⟩ = some "zu" := by decide
  have hmap2 : Mms.mapOf ⟨"xyz", 1 / 2⟩ = none := by decide
  have h := detect_selection_amended envZuluBest "sawubona kakhulu"
    (.listOfDicts [⟨"ZUL", 9 / 10⟩, ⟨"xyz", 1 / 2⟩])
    (by decide) (by decide) rfl (by decide)
  have h3 := h.2.2.1 ⟨"ZUL", 9 / 10⟩
    (by simp [Mms.PredictionsRaw.normalize]) "zu" hmap1
    (by rw [hpct1]; norm_num)
    (by
      intro q hq hs
      simp only [Mms.PredictionsRaw.normalize, List.mem_cons,
        List.not_mem_nil, or_false] at hq
      rcases hq with rfl | rfl
      · exact le_refl _
      · rw [hmap2] at hs; simp at hs)
    (by
      intro q hq c' hqc hqp
      simp only [Mms.PredictionsRaw.normalize, List.mem_cons,
        List.not_mem_nil, or_false] at hq
      rcases hq with rfl | rfl
      · rw [hmap1] at hqc; injection hqc with hqc; exact hqc.symm
      · rw [hmap2] at hqc; exact absurd hqc (by simp))
  exact ⟨by decide, by decide, rfl, by decide, h.1, h3.1⟩

/-- C8 counterexample: a failed load leaves the global pipeline `None`, and
the very next `_load_afrolid_pipeline` call attempts the load again — the
failure is not cached as permanent unavailability. -/
theorem load_failure_retry_counterexample :
    (Mms.load_afrolid_pipeline true false none).attempted = true ∧
    (Mms.load_afrolid_pipeline true false none).returned = none ∧
    (Mms.load_afrolid_pipeline true false
      (Mms.load_afrolid_pipeline true false none).state).attempted = true := by
  decide

/-- C8 (amended): a successful load is cached for the process lifetime —
once a call returns a pipeline, every subsequent call returns that cached
pipeline without attempting a load — but a failed load is not cached as
unavailability: it leaves the global unset and the next call attempts the
load again. -/
theorem load_cache_amended (t s s' : Bool) (st : Option Unit) :
    ((Mms.load_afrolid_pipeline t s st).returned.isSome = true →
      (Mms.load_afrolid_pipeline t s'
        (Mms.load_afrolid_pipeline t s st).state).attempted = false ∧
      (Mms.load_afrolid_pipeline t s'
        (Mms.load_afrolid_pipeline t s st).state).returned =
        (Mms.load_afrolid_pipeline t s st).returned) ∧
    (t = true → st = none → s = false →
      (Mms.load_afrolid_pipeline t s st).returned = none ∧
      (Mms.load_afrolid_pipeline t s'
        (Mms.load_afrolid_pipeline t s st).state).attempted = true) := by
  revert t s s' st
  decide

/-- C8 amended witness: after a successful load the next call (even one
whose own load would fail) returns the cached pipeline without loading. -/
theorem load_cache_amended_witness :
    (Mms.load_afrolid_pipeline true true none).returned.isSome = true ∧
    ((Mms.load_afrolid_pipeline true false
        (Mms.load_afrolid_pipeline true true none).state).attempted = false ∧
     (Mms.load_afrolid_pipeline true false
        (Mms.load_afrolid_pipeline true true none).state).returned =
       (Mms.load_afrolid_pipeline true true none).returned) :=
  ⟨by decide, (load_cache_amended true true false none).1 (by decide)⟩
